import Mathlib

/-!
Verification of the date-normalizing and filter/sort pipeline of the
LinkedIn-posts dashboard (`src/pages/index.jsx` and the relative-date
utility `utils/relativeDate.js`).

JavaScript strings are modelled as `List Char`; JavaScript `Date`
objects/time values as unbounded `Int` milliseconds since the Unix epoch
(the ±8.64e15 `TimeClip` limit is modelled where the code checks `isNaN`);
`null` results as `Option`.  `Int` division `/` and `%` in Lean are
euclidean, which for the positive literal divisors used throughout agrees
with ECMAScript's `floor`/positive-`modulo` operations on time values.
-/

/-- Characters of a string literal, the `List Char` view of a JS string. -/
def cs (s : String) : List Char := s.data

/-- JS whitespace test restricted to the ASCII whitespace characters
(space, tab, LF, VT, FF, CR); all inputs relevant here are ASCII. -/
def jsIsWs (c : Char) : Bool :=
  c = ' ' ∨ c = '\t' ∨ c = '\n' ∨ c = '\x0b' ∨ c = '\x0c' ∨ c = '\r'

/-- `String.prototype.trim`: strip leading and trailing whitespace. -/
def jsTrim (l : List Char) : List Char :=
  ((l.dropWhile jsIsWs).reverse.dropWhile jsIsWs).reverse

/-- `String.prototype.toLowerCase`, on the ASCII range (the inputs of
interest contain no non-ASCII cased letters). -/
def jsToLower (c : Char) : Char :=
  if 'A' ≤ c ∧ c ≤ 'Z' then Char.ofNat (c.toNat + 32) else c

/-- ASCII decimal digit test (`\d` of the JS regexes). -/
def isDigitChar (c : Char) : Bool := '0' ≤ c ∧ c ≤ '9'

/-- Numeric value of a digit string (how JS `Number`/`parseInt` read a
run of decimal digits). -/
def digitsVal (l : List Char) : Nat :=
  l.foldl (fun a c => 10 * a + (c.toNat - 48)) 0

/-- `String.prototype.split(sep)` for a one-character separator: splits at
every occurrence, keeping empty pieces (`"".split(' ') = [""]`). -/
def splitOnChar (sep : Char) : List Char → List (List Char)
  | [] => [[]]
  | c :: rest =>
    if c = sep then [] :: splitOnChar sep rest
    else
      match splitOnChar sep rest with
      | [] => [[c]]
      | t :: ts => (c :: t) :: ts

/-- `parseInt(tok, 10)` digit phase: a nonempty maximal run of leading
decimal digits, or `none` (JS `NaN`). -/
def parseIntDigits (l : List Char) : Option Int :=
  let ds := l.takeWhile isDigitChar
  if ds = [] then none else some (digitsVal ds : Int)

/-- JS `parseInt(tok, 10)`: skip leading whitespace, read an optional
sign, then a nonempty digit prefix; anything after the digits is ignored;
no digits give `NaN` (`none`). -/
def jsParseInt (l : List Char) : Option Int :=
  match l.dropWhile jsIsWs with
  | '-' :: rest => (parseIntDigits rest).map (fun v => -v)
  | '+' :: rest => parseIntDigits rest
  | l1 => parseIntDigits l1

/-! ## The proleptic Gregorian calendar of ECMAScript time values -/

/-- Day number (days since 1970-01-01) of the civil date `(y, m, d)` with
month `m` in `1..12`; `d` may lie outside the month and is carried as an
offset, exactly as in ECMAScript `MakeDay`.  This is the standard
shifted-March formulation of the Gregorian day count. -/
def daysFromCivil (y m d : Int) : Int :=
  let y2 := if m ≤ 2 then y - 1 else y
  let mp := if 3 ≤ m then m - 3 else m + 9
  365 * y2 + y2 / 4 - y2 / 100 + y2 / 400
    + (153 * mp + 2) / 5 + d - 1 - 719468

/-- Year-of-era (0..399) of a day-of-era `doe` (0..146096): first guess
`doe / 366`, corrected upward by one when the next year already started.
(`365 * y + y / 4 - y / 100` is the first day of year-of-era `y`.) -/
def cdYoe (doe : Int) : Int :=
  if doe / 366 + 1 ≤ 399 ∧
      365 * (doe / 366 + 1) + (doe / 366 + 1) / 4 - (doe / 366 + 1) / 100 ≤ doe then
    doe / 366 + 1
  else doe / 366

/-- Civil date `(year, month 1..12, day 1..31)` of a day number, the
inverse of `daysFromCivil` (ECMAScript `YearFromTime`/`MonthFromTime`/
`DateFromTime` on the day level); `civil_roundtrip` below certifies it. -/
def civilFromDays (z : Int) : Int × Int × Int :=
  let era := (z + 719468) / 146097
  let doe := (z + 719468) % 146097
  let yoe := cdYoe doe
  let doy := doe - (365 * yoe + yoe / 4 - yoe / 100)
  let mp := (5 * doy + 2) / 153
  let d := doy - (153 * mp + 2) / 5 + 1
  let m := if mp < 10 then mp + 3 else mp - 9
  (if m ≤ 2 then yoe + era * 400 + 1 else yoe + era * 400, m, d)

/-- ECMAScript `MakeDay(y, mIdx, d)` with a 0-based month index that may
lie outside `0..11`: the year absorbs `mIdx / 12`. -/
def makeDay (y mIdx d : Int) : Int :=
  daysFromCivil (y + mIdx / 12) (mIdx % 12 + 1) d

example : civilFromDays 0 = (1970, 1, 1) := by decide
example : civilFromDays 19782 = (2024, 2, 29) := by decide
example : civilFromDays (-719469) = (0, 2, 29) := by decide
example : civilFromDays (-25509) = (1900, 2, 28) := by decide
example : daysFromCivil 2024 1 10 = 19732 := by decide

theorem cdYoe_spec (doe : Int) (h0 : 0 ≤ doe) (h1 : doe < 146097) :
    0 ≤ cdYoe doe ∧ cdYoe doe ≤ 399 ∧
    365 * cdYoe doe + cdYoe doe / 4 - cdYoe doe / 100 ≤ doe ∧
    doe - (365 * cdYoe doe + cdYoe doe / 4 - cdYoe doe / 100) ≤ 365 := by
  unfold cdYoe; split_ifs <;> omega

set_option maxHeartbeats 1000000 in
/-- `civilFromDays` produces a month in `1..12` and is a right inverse of
`daysFromCivil`. -/
theorem civil_roundtrip (z : Int) :
    1 ≤ (civilFromDays z).2.1 ∧ (civilFromDays z).2.1 ≤ 12 ∧
    daysFromCivil (civilFromDays z).1 (civilFromDays z).2.1 (civilFromDays z).2.2 = z := by
  obtain ⟨hY0, hY1, hY2, hY3⟩ := cdYoe_spec ((z + 719468) % 146097) (by omega) (by omega)
  simp only [civilFromDays, daysFromCivil]
  generalize hY : cdYoe ((z + 719468) % 146097) = Y at hY0 hY1 hY2 hY3 ⊢
  have e1 : (Y + (z + 719468) / 146097 * 400) / 4 = Y / 4 + (z + 719468) / 146097 * 100 := by
    omega
  have e2 : (Y + (z + 719468) / 146097 * 400) / 100 = Y / 100 + (z + 719468) / 146097 * 4 := by
    omega
  have e3 : (Y + (z + 719468) / 146097 * 400) / 400 = (z + 719468) / 146097 := by
    omega
  split_ifs <;>
    (try simp only [Int.add_sub_cancel, Int.sub_add_cancel]) <;> omega

set_option maxHeartbeats 1000000 in
theorem makeDay_month_step (y a d : Int) : makeDay y a d ≤ makeDay y (a + 1) d := by
  simp only [makeDay, daysFromCivil]
  have h12 : (a + 1) / 12 = a / 12 ∨ (a + 1) / 12 = a / 12 + 1 := by omega
  split_ifs <;> omega

theorem daysFromCivil_year_mono (a b m d : Int) (h : a ≤ b) :
    daysFromCivil a m d ≤ daysFromCivil b m d := by
  simp only [daysFromCivil]
  split_ifs <;> omega

theorem makeDay_month_mono (y a b d : Int) (h : a ≤ b) :
    makeDay y a d ≤ makeDay y b d := by
  obtain ⟨n, rfl⟩ : ∃ n : Nat, b = a + n := ⟨(b - a).toNat, by omega⟩
  induction n with
  | zero => simp
  | succ k ih =>
      calc makeDay y a d ≤ makeDay y (a + k) d := ih (by omega)
        _ ≤ makeDay y (a + k + 1) d := makeDay_month_step y (a + k) d
        _ = makeDay y (a + (k + 1 : Nat)) d := by push_cast; ring_nf

theorem makeDay_eq_daysFromCivil (y m d : Int) (h1 : 1 ≤ m) (h2 : m ≤ 12) :
    makeDay y (m - 1) d = daysFromCivil y m d := by
  have hq : (m - 1) / 12 = 0 := by omega
  have hr : (m - 1) % 12 = m - 1 := by omega
  simp only [makeDay, hq, hr, add_zero, sub_add_cancel]

theorem daysFromCivil_day_shift (y m d n : Int) :
    daysFromCivil y m (d - n) = daysFromCivil y m d - n := by
  simp only [daysFromCivil]
  split_ifs <;> ring

/-! ## The UTC field setters used by the dashboard code

`d.setUTCDate(d.getUTCDate() - n)` and the month/year analogues
decompose the time value into civil fields, shift one field, and
reassemble via `MakeDay`, keeping the time of day. -/

/-- `d.setUTCDate(d.getUTCDate() - n)` on time value `t`. -/
def setUTCDateMinus (t n : Int) : Int :=
  makeDay (civilFromDays (t / 86400000)).1 ((civilFromDays (t / 86400000)).2.1 - 1)
    ((civilFromDays (t / 86400000)).2.2 - n) * 86400000 + t % 86400000

/-- `d.setUTCMonth(d.getUTCMonth() - n)` on time value `t`. -/
def setUTCMonthMinus (t n : Int) : Int :=
  makeDay (civilFromDays (t / 86400000)).1 ((civilFromDays (t / 86400000)).2.1 - 1 - n)
    (civilFromDays (t / 86400000)).2.2 * 86400000 + t % 86400000

/-- `d.setUTCFullYear(d.getUTCFullYear() - n)` on time value `t`. -/
def setUTCFullYearMinus (t n : Int) : Int :=
  makeDay ((civilFromDays (t / 86400000)).1 - n) ((civilFromDays (t / 86400000)).2.1 - 1)
    (civilFromDays (t / 86400000)).2.2 * 86400000 + t % 86400000

/-- Shifting the day-of-month field by `n` shifts the time value by
exactly `n` UTC days. -/
theorem setUTCDateMinus_eq (t n : Int) : setUTCDateMinus t n = t - n * 86400000 := by
  obtain ⟨h1, h2, h3⟩ := civil_roundtrip (t / 86400000)
  unfold setUTCDateMinus
  rcases hc : civilFromDays (t / 86400000) with ⟨y, m, d⟩
  rw [hc] at h1 h2 h3
  dsimp only at h1 h2 h3 ⊢
  rw [makeDay_eq_daysFromCivil y m (d - n) h1 h2, daysFromCivil_day_shift, h3]
  omega

theorem setUTCMonthMinus_le (t n : Int) (hn : 0 ≤ n) : setUTCMonthMinus t n ≤ t := by
  obtain ⟨h1, h2, h3⟩ := civil_roundtrip (t / 86400000)
  unfold setUTCMonthMinus
  rcases hc : civilFromDays (t / 86400000) with ⟨y, m, d⟩
  rw [hc] at h1 h2 h3
  dsimp only at h1 h2 h3 ⊢
  have hmono : makeDay y (m - 1 - n) d ≤ makeDay y (m - 1) d :=
    makeDay_month_mono y (m - 1 - n) (m - 1) d (by omega)
  rw [makeDay_eq_daysFromCivil y m d h1 h2, h3] at hmono
  omega

theorem setUTCFullYearMinus_le (t n : Int) (hn : 0 ≤ n) : setUTCFullYearMinus t n ≤ t := by
  obtain ⟨h1, h2, h3⟩ := civil_roundtrip (t / 86400000)
  unfold setUTCFullYearMinus
  rcases hc : civilFromDays (t / 86400000) with ⟨y, m, d⟩
  rw [hc] at h1 h2 h3
  dsimp only at h1 h2 h3 ⊢
  have hmono : makeDay (y - n) (m - 1) d ≤ makeDay y (m - 1) d := by
    rw [makeDay_eq_daysFromCivil y m d h1 h2, makeDay_eq_daysFromCivil (y - n) m d h1 h2]
    exact daysFromCivil_year_mono (y - n) y m d (by omega)
  rw [makeDay_eq_daysFromCivil y m d h1 h2, h3] at hmono
  omega

example : setUTCDateMinus 0 1 = -86400000 := by decide
example : cs "ab" = ['a', 'b'] := by decide

/-! ## `parseRelativeLinkedInDate` (src/pages/index.jsx, lines 65-127)

Normalization pipeline of the dashboard's relative parser: lower-case and
trim, replace each of `· • – — .` by a space, collapse double spaces,
insert a space between a digit and a following letter. -/

/-- One pass of `s.split(ch).join(' ')`: every occurrence of `ch` becomes
a space. -/
def replaceCharWithSpace (ch : Char) (l : List Char) : List Char :=
  l.map fun c => if c = ch then ' ' else c

/-- The `for (const ch of junk) s = s.split(ch).join(' ')` loop over
`['·', '•', '–', '—', '.']`. -/
def replaceJunk (l : List Char) : List Char :=
  ['·', '•', '–', '—', '.'].foldl (fun acc ch => replaceCharWithSpace ch acc) l

/-- Fixpoint of `while (s.indexOf('  ') !== -1) s = s.replace('  ', ' ')`:
each maximal run of spaces becomes a single space (the loop rewrites the
leftmost double space until none remains, and that normal form collapses
every run; other whitespace characters are untouched). -/
def collapseDoubleSpaces : List Char → List Char
  | [] => []
  | [c] => [c]
  | c1 :: c2 :: rest =>
    if c1 = ' ' ∧ c2 = ' ' then collapseDoubleSpaces (c2 :: rest)
    else c1 :: collapseDoubleSpaces (c2 :: rest)

/-- Lower-case ASCII letter test (the `isLetter` of `numUnitSpacing`). -/
def isLowerAZ (c : Char) : Bool := 'a' ≤ c ∧ c ≤ 'z'

/-- Body of `numUnitSpacing`: emit a space between a digit and a directly
following lower-case letter (the previous character is threaded). -/
def numUnitAux : Char → List Char → List Char
  | _, [] => []
  | p, c :: rest =>
    if isDigitChar p ∧ isLowerAZ c then ' ' :: c :: numUnitAux c rest
    else c :: numUnitAux c rest

/-- `numUnitSpacing` of the source: `"2h"` becomes `"2 h"`. -/
def numUnitSpacing : List Char → List Char
  | [] => []
  | c :: rest => c :: numUnitAux c rest

/-- The full normalization `s` of `parseRelativeLinkedInDate` before the
literal-phrase tests. -/
def normalizeRel (v : List Char) : List Char :=
  numUnitSpacing (collapseDoubleSpaces (replaceJunk (jsTrim (v.map jsToLower))))

/-- The six unit buckets of the dashboard parser's `map`. -/
inductive TimeUnit
  | minute | hour | day | week | month | year
deriving DecidableEq

/-- The `map` lookup (`for (const k in map)` in insertion order, first
bucket whose form list contains the token). -/
def unitKind (u : List Char) : Option TimeUnit :=
  if u ∈ [cs "min", cs "mins", cs "minute", cs "minutes", cs "m"] then some .minute
  else if u ∈ [cs "hr", cs "hrs", cs "hour", cs "hours", cs "h"] then some .hour
  else if u ∈ [cs "day", cs "days", cs "d"] then some .day
  else if u ∈ [cs "week", cs "weeks", cs "wk", cs "wks", cs "w"] then some .week
  else if u ∈ [cs "month", cs "months", cs "mo", cs "mos"] then some .month
  else if u ∈ [cs "yr", cs "yrs", cs "year", cs "years", cs "y"] then some .year
  else none

/-- Token phase of the dashboard parser: skip one optional prefix among
`about/approx/approximately`, `parseInt` the quantity token, then take
the next token as the unit; fail (`null`) when a token is missing or the
quantity is `NaN`.  (The optional trailing `'ago'` token is skipped by
the source but nothing after the unit affects the result.) -/
def relQtyUnit (parts : List (List Char)) : Option (Int × List Char) :=
  match parts with
  | [] => none
  | p0 :: rest0 =>
    match
      (if p0 = cs "about" ∨ p0 = cs "approx" ∨ p0 = cs "approximately" then rest0
       else p0 :: rest0) with
    | [] => none
    | numTok :: rest1 =>
      match jsParseInt numTok with
      | none => none
      | some n =>
        match rest1 with
        | [] => none
        | unitTok :: _ => some (n, unitTok)

/-- The `switch (kind)` applying the relative offset to `now`: fixed
durations for minutes/hours, UTC-day shifts for days/weeks, calendar
field shifts for months/years. -/
def applyUnitSub (now n : Int) : TimeUnit → Int
  | .minute => now - n * 60000
  | .hour => now - n * 3600000
  | .day => setUTCDateMinus now n
  | .week => setUTCDateMinus now (n * 7)
  | .month => setUTCMonthMinus now n
  | .year => setUTCFullYearMinus now n

/-- `parseRelativeLinkedInDate(v, now)` of src/pages/index.jsx: `null` on
empty input, literal `'just now'`/`'yesterday'` phrases, otherwise the
`[prefix] <n> <unit> [ago]` token grammar. -/
def parseRelativeLinkedInDate (v : List Char) (now : Int) : Option Int :=
  if v = [] then none
  else
    let s := normalizeRel v
    if s = cs "just now" then some now
    else if s = cs "yesterday" then some (setUTCDateMinus now 1)
    else
      match relQtyUnit (splitOnChar ' ' s) with
      | none => none
      | some (n, u) =>
        match unitKind u with
        | none => none
        | some k => some (applyUnitSub now n k)

example : parseRelativeLinkedInDate (cs "2h") 0 = some (-7200000) := by decide
example : parseRelativeLinkedInDate (cs "3 days ago") 0 = some (-259200000) := by decide
example : parseRelativeLinkedInDate (cs "about 5 min") 0 = some (-300000) := by decide
example : parseRelativeLinkedInDate (cs "banana") 0 = none := by decide
example : parseRelativeLinkedInDate (cs "1 mo") 0 = some (-2678400000) := by decide

/-! ## `parseDateSafe` and `parseAnyDate` (src/pages/index.jsx, 18-27, 128)

The generic `new Date(string)` parser is host- and timezone-dependent;
it is abstracted as a parameter `generic`, so every theorem quantifying
over `generic` holds for every host behaviour of that parser. -/

/-- ECMAScript `MakeFullYear` as applied by `Date.UTC`: years `0..99`
denote `1900..1999`. -/
def makeFullYear (y : Nat) : Int := if y ≤ 99 then 1900 + (y : Int) else (y : Int)

/-- `Date.UTC(y, m - 1, d)` for the `Number`-converted fields of the
`YYYY-MM-DD` regex match: the UTC time value in milliseconds. -/
def dateUTC (y m d : Nat) : Int := makeDay (makeFullYear y) ((m : Int) - 1) (d : Int) * 86400000

/-- The regex test `/^\d{4}-\d{2}-\d{2}$/.test(v)`. -/
def isoMatch : List Char → Bool
  | [y1, y2, y3, y4, h1, m1, m2, h2, d1, d2] =>
    isDigitChar y1 && isDigitChar y2 && isDigitChar y3 && isDigitChar y4 &&
    h1 == '-' && isDigitChar m1 && isDigitChar m2 && h2 == '-' &&
    isDigitChar d1 && isDigitChar d2
  | _ => false

/-- ECMAScript `TimeClip` bound: beyond ±8.64e15 ms the `Date` is invalid
and `isNaN(dt.getTime())` holds. -/
def timeClipOK (t : Int) : Prop := -8640000000000000 ≤ t ∧ t ≤ 8640000000000000

instance (t : Int) : Decidable (timeClipOK t) := by unfold timeClipOK; infer_instance

/-- `parseDateSafe(v)`: `null` on falsy input; the strict-ISO branch
(split on `-`, `Number` the three fields, `Date.UTC`) when the regex
matches; otherwise the host's generic parser. -/
def parseDateSafe (generic : List Char → Option Int) (v : List Char) : Option Int :=
  if v = [] then none
  else if isoMatch v then
    match splitOnChar '-' v with
    | [ys, ms, ds] =>
      let t := dateUTC (digitsVal ys) (digitsVal ms) (digitsVal ds)
      if timeClipOK t then some t else none
    | _ => none
  else generic v

/-- `parseAnyDate(v)`: the absolute parse wins; otherwise the relative
parser (whose implicit `new Date()` default is the explicit `now`). -/
def parseAnyDate (generic : List Char → Option Int) (v : List Char) (now : Int) : Option Int :=
  match parseDateSafe generic v with
  | some t => some t
  | none => parseRelativeLinkedInDate v now

/-! ## Specification-side calendar (§4.1 of the spec)

`specUtcMidnight` formalizes the spec's words "the UTC midnight instant
of that calendar date" independently of the source's shifted-March day
count: days of full years by the Gregorian leap rule plus a cumulative
month table.  It is compared against `parseDateSafe` in the C1 theorems. -/

/-- Gregorian leap-year predicate (spec side). -/
def isLeapYear (y : Nat) : Prop := (y % 4 = 0 ∧ y % 100 ≠ 0) ∨ y % 400 = 0

instance (y : Nat) : Decidable (isLeapYear y) := by unfold isLeapYear; infer_instance

/-- Days of the months before month `m` in a non-leap year. -/
def cumDaysBeforeMonth : Nat → Nat
  | 1 => 0 | 2 => 31 | 3 => 59 | 4 => 90 | 5 => 120 | 6 => 151
  | 7 => 181 | 8 => 212 | 9 => 243 | 10 => 273 | 11 => 304 | _ => 334

/-- Length of month `m` of year `y` (spec side). -/
def monthLength (y m : Nat) : Nat :=
  if m = 2 then (if isLeapYear y then 29 else 28)
  else if m = 4 ∨ m = 6 ∨ m = 9 ∨ m = 11 then 30
  else 31

/-- `(y, m, d)` denotes a valid proleptic Gregorian calendar date (with
the four-digit year range of the `YYYY-MM-DD` form). -/
def validDate (y m d : Nat) : Prop :=
  1 ≤ m ∧ m ≤ 12 ∧ 1 ≤ d ∧ d ≤ monthLength y m ∧ y ≤ 9999

instance (y m d : Nat) : Decidable (validDate y m d) := by unfold validDate; infer_instance

/-- Day number (days since 1970-01-01) of `(y, m, d)`, spec side:
365 days per year plus one per leap year before `y`, the month table,
a leap-day correction from March on, and the day of month. -/
def dayNumber (y m d : Nat) : Int :=
  (365 * y + (y + 3) / 4 - (y + 99) / 100 + (y + 399) / 400
      + cumDaysBeforeMonth m + (if 3 ≤ m ∧ isLeapYear y then 1 else 0) + (d - 1) : Nat)
    - (719528 : Int)

/-- The spec's "UTC midnight instant of the calendar date `(y, m, d)`". -/
def specUtcMidnight (y m d : Nat) : Int := dayNumber y m d * 86400000

example : specUtcMidnight 1970 1 1 = 0 := by decide
example : specUtcMidnight 2024 1 10 = 1704844800000 := by decide
example : specUtcMidnight 2024 2 29 = 1709164800000 := by decide

/-- The cumulative month table as the closed formula used by the
shifted-March day count. -/
theorem cum_formula (m : Nat) (h1 : 1 ≤ m) (h2 : m ≤ 12) :
    ((cumDaysBeforeMonth m : Nat) : Int) =
      if (m : Int) ≤ 2 then 31 * ((m : Int) - 1) else (153 * ((m : Int) - 3) + 2) / 5 + 59 := by
  have hm : m = 1 ∨ m = 2 ∨ m = 3 ∨ m = 4 ∨ m = 5 ∨ m = 6 ∨ m = 7 ∨ m = 8 ∨
      m = 9 ∨ m = 10 ∨ m = 11 ∨ m = 12 := by omega
  rcases hm with rfl | rfl | rfl | rfl | rfl | rfl | rfl | rfl | rfl | rfl | rfl | rfl <;>
    decide

set_option maxHeartbeats 1000000 in
/-- The source's shifted-March day count agrees with the spec-side day
number on every month `1..12` (for any day offset `d ≥ 1`). -/
theorem daysFromCivil_eq_dayNumber (y m d : Nat) (h1 : 1 ≤ m) (h2 : m ≤ 12) (h3 : 1 ≤ d) :
    daysFromCivil (y : Int) (m : Int) (d : Int) = dayNumber y m d := by
  have hcum := cum_formula m h1 h2
  simp only [daysFromCivil, dayNumber]
  split_ifs at hcum ⊢ <;> (try unfold isLeapYear at *) <;> omega

/-! ## `parseLinkedInRelative` (src/unnamed/part_000, utils/relativeDate.js)

The second, independently-written relative parser.  Its local-time field
setters are modelled under a fixed UTC offset `tz` (DST transitions are
outside the spec's scope); the host's `new Date(string)` parser is again
an abstract parameter.  Only the `posted_at` component of its result
record is modelled — `posted_iso`/`posted_age_days` are derived views of
the same instant. -/

/-- `.replace(/edited/g, "")`: remove every (leftmost, non-overlapping)
occurrence of the substring `edited`. -/
def removeEdited : List Char → List Char
  | 'e' :: 'd' :: 'i' :: 't' :: 'e' :: 'd' :: rest => removeEdited rest
  | c :: rest => c :: removeEdited rest
  | [] => []

/-- Regex `\w` (letter, digit or underscore). -/
def isWordChar (c : Char) : Bool :=
  ('a' ≤ c ∧ c ≤ 'z') ∨ ('A' ≤ c ∧ c ≤ 'Z') ∨ ('0' ≤ c ∧ c ≤ '9') ∨ c = '_'

/-- A `\b` word boundary holds against this neighbouring character
(or against the string's edge). -/
def boundaryOK : Option Char → Bool
  | none => true
  | some c => !(isWordChar c)

/-- `.replace(/\bago\b/g, "")` body: matches are located in the original
string (the threaded `prev` is the original preceding character), each
`ago` with word boundaries on both sides is dropped. -/
def removeAgoAux : Option Char → List Char → List Char
  | prev, 'a' :: 'g' :: 'o' :: rest =>
    if boundaryOK prev ∧ boundaryOK rest.head? then removeAgoAux (some 'o') rest
    else 'a' :: removeAgoAux (some 'a') ('g' :: 'o' :: rest)
  | _, c :: rest => c :: removeAgoAux (some c) rest
  | _, [] => []

def removeAgoWords (l : List Char) : List Char := removeAgoAux none l

/-- `.replace(/\s+/g, " ")`: each maximal whitespace run becomes one
space. -/
def collapseWs : List Char → List Char
  | [] => []
  | [c] => if jsIsWs c then [' '] else [c]
  | c1 :: c2 :: rest =>
    if jsIsWs c1 then
      if jsIsWs c2 then collapseWs (c2 :: rest)
      else ' ' :: collapseWs (c2 :: rest)
    else c1 :: collapseWs (c2 :: rest)

/-- The normalized string `s` of `parseLinkedInRelative`: lower-case,
drop `edited`, turn `·`/`•` into spaces, drop `ago` words, collapse
whitespace, trim. -/
def normalize000 (v : List Char) : List Char :=
  jsTrim (collapseWs (removeAgoWords
    (replaceCharWithSpace '•' (replaceCharWithSpace '·' (removeEdited (v.map jsToLower))))))

/-- Does `\d{4}-\d{1,2}-\d{1,2}` match starting at this position? -/
def isoLikeHere (l : List Char) : Bool :=
  match l with
  | a :: b :: c :: d :: '-' :: rest =>
    isDigitChar a && isDigitChar b && isDigitChar c && isDigitChar d &&
      ((match rest with
        | e :: '-' :: f :: _ => isDigitChar e && isDigitChar f
        | _ => false)
      || (match rest with
        | e :: e2 :: '-' :: f :: _ => isDigitChar e && isDigitChar e2 && isDigitChar f
        | _ => false))
  | _ => false

/-- The unanchored test `/\d{4}-\d{1,2}-\d{1,2}/.test(s)`. -/
def hasIsoLike : List Char → Bool
  | [] => false
  | c :: rest => isoLikeHere (c :: rest) || hasIsoLike rest

/-- Two decimal digits start here (`\d{2,4}` needs no more for a match). -/
def twoDigitsHere (l : List Char) : Bool :=
  match l with
  | a :: b :: _ => isDigitChar a && isDigitChar b
  | _ => false

/-- After the first `/`: `\d{1,2}\/\d{2,4}`. -/
def slashMid (l : List Char) : Bool :=
  (match l with
    | a :: '/' :: rest => isDigitChar a && twoDigitsHere rest
    | _ => false)
  || (match l with
    | a :: b :: '/' :: rest => isDigitChar a && isDigitChar b && twoDigitsHere rest
    | _ => false)

/-- Does `\d{1,2}\/\d{1,2}\/\d{2,4}` match starting at this position? -/
def slashHere (l : List Char) : Bool :=
  (match l with
    | a :: '/' :: rest => isDigitChar a && slashMid rest
    | _ => false)
  || (match l with
    | a :: b :: '/' :: rest => isDigitChar a && isDigitChar b && slashMid rest
    | _ => false)

/-- The unanchored test `/\d{1,2}\/\d{1,2}\/\d{2,4}/.test(s)`. -/
def hasSlashLike : List Char → Bool
  | [] => false
  | c :: rest => slashHere (c :: rest) || hasSlashLike rest

/-- The unit alternation `yrs?|years?|y|mos?|months?|mo|wks?|weeks?|w|
days?|d|hrs?|hours?|h|mins?|minutes?|m` flattened in JS backtracking
order (each greedy `s?` tries the longer form first). -/
def unitAlts : List (List Char) :=
  [cs "yrs", cs "yr", cs "years", cs "year", cs "y",
   cs "mos", cs "mo", cs "months", cs "month", cs "mo",
   cs "wks", cs "wk", cs "weeks", cs "week", cs "w",
   cs "days", cs "day", cs "d",
   cs "hrs", cs "hr", cs "hours", cs "hour", cs "h",
   cs "mins", cs "min", cs "minutes", cs "minute", cs "m"]

/-- First alternative that matches at this position with a `\b` after it. -/
def matchUnitAt (l : List Char) : Option (List Char) :=
  unitAlts.findSome? fun alt =>
    if alt.isPrefixOf l && boundaryOK (l.drop alt.length).head? then some alt else none

/-- First match of `/(\d+)\s*(units...)\b/` scanning left to right:
at each position a maximal digit run (`\d+` greedy; shortening it can
never help since no unit begins with a digit), maximal whitespace
(`\s*`; likewise), then the unit alternation.  Returns the quantity and
the captured unit token. -/
def findUnitMatch : List Char → Option (Int × List Char)
  | [] => none
  | c :: rest =>
    if isDigitChar c then
      match matchUnitAt ((c :: rest).dropWhile isDigitChar |>.dropWhile jsIsWs) with
      | some alt => some ((digitsVal ((c :: rest).takeWhile isDigitChar) : Int), alt)
      | none => findUnitMatch rest
    else findUnitMatch rest

/-- The six unit classes of part_000. -/
inductive Unit000
  | year | month | week | day | hour | minute
deriving DecidableEq

/-- The classification chain of regexes on the captured unit token,
evaluated on the finitely many tokens the capture group can produce:
`/^y(ear|rs)?\b|^yrs?$/` accepts exactly `y`, `year`, `yrs`, `yr`
(not `years`: `y(ear)` leaves `s` inside the word, killing `\b`, and
`^yrs?$` fails on `years`); `/^mo(nth|nths|s)?$/` accepts `mo`, `month`,
`months`, `mos`; `/^w(k|ks|eek|eeks)?$/` accepts `w`, `wk`, `wks`,
`week`, `weeks`; `/^d(ay|ays)?$/`, `/^h(r|rs|our|ours)?$/` and
`/^m(in|ins|inute|inutes)?$/` likewise. -/
def classify000 (u : List Char) : Option Unit000 :=
  if u ∈ [cs "y", cs "year", cs "yrs", cs "yr"] then some .year
  else if u ∈ [cs "mo", cs "month", cs "months", cs "mos"] then some .month
  else if u ∈ [cs "w", cs "wk", cs "wks", cs "week", cs "weeks"] then some .week
  else if u ∈ [cs "d", cs "day", cs "days"] then some .day
  else if u ∈ [cs "h", cs "hr", cs "hrs", cs "hour", cs "hours"] then some .hour
  else if u ∈ [cs "m", cs "min", cs "mins", cs "minute", cs "minutes"] then some .minute
  else none

/-- Local-time `setDate(getDate() - n)` under fixed offset `tz`. -/
def setLocalDateMinus (tz t n : Int) : Int := setUTCDateMinus (t + tz) n - tz

/-- Local-time `setMonth(getMonth() - n)` under fixed offset `tz`. -/
def setLocalMonthMinus (tz t n : Int) : Int := setUTCMonthMinus (t + tz) n - tz

/-- Local-time `setFullYear(getFullYear() - n)` under fixed offset `tz`. -/
def setLocalYearMinus (tz t n : Int) : Int := setUTCFullYearMinus (t + tz) n - tz

/-- The if-chain applying the classified unit (hour/minute shifts are
offset-independent fixed durations). -/
def applyUnit000 (tz now q : Int) : Unit000 → Int
  | .year => setLocalYearMinus tz now q
  | .month => setLocalMonthMinus tz now q
  | .week => setLocalDateMinus tz now (q * 7)
  | .day => setLocalDateMinus tz now q
  | .hour => now - q * 3600000
  | .minute => now - q * 60000

/-- `parseLinkedInRelative(input, now)` of utils/relativeDate.js
(`posted_at` component): falsy input fails; literal `just now`/`now`;
an absolute-looking string goes to the host date parser (falling through
when that yields an invalid date); otherwise the quantity-unit regex. -/
def parseLinkedInRelative (generic : List Char → Option Int) (tz : Int)
    (v : List Char) (now : Int) : Option Int :=
  if v = [] then none
  else
    let s := normalize000 v
    if s = cs "just now" ∨ s = cs "now" then some now
    else
      match (if hasIsoLike s || hasSlashLike s then generic s else none) with
      | some t => some t
      | none =>
        match findUnitMatch s with
        | none => none
        | some (q, alt) =>
          match classify000 alt with
          | none => none
          | some k => some (applyUnit000 tz now q k)

example : parseLinkedInRelative (fun _ => none) 0 (cs "2 h") 0 = some (-7200000) := by decide
example : parseLinkedInRelative (fun _ => none) 0 (cs "5 years") 0 = none := by decide
example : parseLinkedInRelative (fun _ => none) 0 (cs "3 d ago · Edited") 0
    = some (-259200000) := by decide
example : parseLinkedInRelative (fun _ => some 77) 0 (cs "2024-01-10") 0 = some 77 := by decide

/-! ## The filter / sort / limit pipeline (src/pages/index.jsx, 253-289)

A normalized row as produced by `normalizeRow`; `dateObj` is `none` for
`null` (unparseable date).  The `filtered` memo applies the author, tag,
period and free-text stages in order and then sorts; `limited` truncates. -/

structure Post where
  includeRaw : List Char
  dateRaw : List Char
  dateObj : Option Int
  author : List Char
  title : List Char
  summary : List Char
  tags : List (List Char)
  url : List Char
deriving DecidableEq

/-- `if (authors.length) out = out.filter(r => authors.includes(r.author))`. -/
def authorStage (authors : List (List Char)) (rows : List Post) : List Post :=
  if authors = [] then rows else rows.filter fun r => authors.contains r.author

/-- `if (tags.length) out = out.filter(r => r.tags.some(t => tags.includes(t)))`. -/
def tagStage (tags : List (List Char)) (rows : List Post) : List Post :=
  if tags = [] then rows else rows.filter fun r => r.tags.any fun t => tags.contains t

/-- `if (period > 0)` stage: `cutoff` is the wall clock (`new Date()`,
passed here explicitly as `now`) shifted back `period` UTC days; a post
passes iff its `dateObj` is non-null and `≥ cutoff`. -/
def periodStage (period now : Int) (rows : List Post) : List Post :=
  if 0 < period then
    rows.filter fun r =>
      match r.dateObj with
      | some t => decide (setUTCDateMinus now period ≤ t)
      | none => false
  else rows

/-- `String.prototype.includes`: the needle occurs at some position. -/
def containsSub (needle : List Char) : List Char → Bool
  | [] => needle.isPrefixOf []
  | c :: rest => needle.isPrefixOf (c :: rest) || containsSub needle rest

/-- `hay.toLowerCase().includes(q)`. -/
def lcIncludes (hay q : List Char) : Bool := containsSub q (hay.map jsToLower)

/-- `if (search.trim())` stage: case-insensitive substring match of the
trimmed query against title, author, summary, or the comma-joined tags. -/
def searchStage (search : List Char) (rows : List Post) : List Post :=
  if jsTrim search = [] then rows
  else
    rows.filter fun r =>
      lcIncludes r.title ((jsTrim search).map jsToLower) ||
      lcIncludes r.author ((jsTrim search).map jsToLower) ||
      lcIncludes r.summary ((jsTrim search).map jsToLower) ||
      lcIncludes (List.intercalate (cs ",") r.tags) ((jsTrim search).map jsToLower)

/-- The four filter stages of the `filtered` memo, before the sort. -/
def applyFilters (authors tags : List (List Char)) (period : Int) (search : List Char)
    (now : Int) (rows : List Post) : List Post :=
  searchStage search (periodStage period now (tagStage tags (authorStage authors rows)))

/-- `a.dateObj ? a.dateObj.getTime() : 0`. -/
def timeVal (r : Post) : Int :=
  match r.dateObj with
  | some t => t
  | none => 0

/-- String comparison by code units, the locale-independent reading of
`localeCompare` (the spec calls this order "lexicographic"). -/
def strCompare : List Char → List Char → Int
  | [], [] => 0
  | [], _ :: _ => -1
  | _ :: _, [] => 1
  | a :: as, b :: bs => if a < b then -1 else if b < a then 1 else strCompare as bs

/-- The sort comparator of the `filtered` memo: descending time value
(absent `dateObj` counting as epoch zero), then author, then title. -/
def postCompare (a b : Post) : Int :=
  if timeVal b ≠ timeVal a then timeVal b - timeVal a
  else if strCompare a.author b.author ≠ 0 then strCompare a.author b.author
  else strCompare a.title b.title

/-- Stable insertion step for the sort: `x` goes before the first element
it does not compare after. -/
def insertPost (x : Post) : List Post → List Post
  | [] => [x]
  | y :: ys => if postCompare x y ≤ 0 then x :: y :: ys else y :: insertPost x ys

/-- A stable sort by `postCompare` (JS `Array.prototype.sort` is stable). -/
def sortPosts : List Post → List Post
  | [] => []
  | x :: xs => insertPost x (sortPosts xs)

/-- The whole `filtered` memo: filter stages then sort. -/
def filteredMemo (authors tags : List (List Char)) (period : Int) (search : List Char)
    (now : Int) (rows : List Post) : List Post :=
  sortPosts (applyFilters authors tags period search now rows)

/-- The `limited` memo:
`!maxResults || maxResults === -1 ? filtered : filtered.slice(0, maxResults)`;
`slice` with a negative end counts from the end of the list, clamped at 0. -/
def limited (maxResults : Int) (rows : List Post) : List Post :=
  if maxResults = 0 ∨ maxResults = -1 then rows
  else if 0 ≤ maxResults then rows.take maxResults.toNat
  else rows.take (rows.length - maxResults.natAbs)

/-! ## Helper lemmas -/

theorem authorStage_sublist (A : List (List Char)) (rows : List Post) :
    (authorStage A rows).Sublist rows := by
  unfold authorStage
  split_ifs <;> first | exact List.Sublist.refl _ | exact List.filter_sublist _

theorem tagStage_sublist (T : List (List Char)) (rows : List Post) :
    (tagStage T rows).Sublist rows := by
  unfold tagStage
  split_ifs <;> first | exact List.Sublist.refl _ | exact List.filter_sublist _

theorem periodStage_sublist (per now : Int) (rows : List Post) :
    (periodStage per now rows).Sublist rows := by
  unfold periodStage
  split_ifs <;> first | exact List.Sublist.refl _ | exact List.filter_sublist _

theorem searchStage_sublist (s : List Char) (rows : List Post) :
    (searchStage s rows).Sublist rows := by
  unfold searchStage
  split_ifs <;> first | exact List.Sublist.refl _ | exact List.filter_sublist _

theorem applyFilters_sublist (A T : List (List Char)) (per : Int) (s : List Char)
    (now : Int) (rows : List Post) : (applyFilters A T per s now rows).Sublist rows := by
  unfold applyFilters
  exact ((searchStage_sublist _ _).trans ((periodStage_sublist _ _ _).trans
    (tagStage_sublist _ _))).trans (authorStage_sublist _ _)

theorem periodStage_inactive (per now : Int) (rows : List Post) (h : per ≤ 0) :
    periodStage per now rows = rows := by
  unfold periodStage
  rw [if_neg (by omega)]

theorem applyUnitSub_le (now n : Int) (k : TimeUnit) (hn : 0 ≤ n) :
    applyUnitSub now n k ≤ now := by
  cases k <;> simp only [applyUnitSub]
  · omega
  · omega
  · rw [setUTCDateMinus_eq]; omega
  · rw [setUTCDateMinus_eq]; omega
  · exact setUTCMonthMinus_le now n hn
  · exact setUTCFullYearMinus_le now n hn

theorem strCompare_eq_zero_iff : ∀ s t : List Char, strCompare s t = 0 ↔ s = t
  | [], [] => by simp [strCompare]
  | [], _ :: _ => by simp [strCompare]
  | _ :: _, [] => by simp [strCompare]
  | a :: as, b :: bs => by
    simp only [strCompare]
    split_ifs with h1 h2
    · constructor
      · intro h; exact absurd h (by decide)
      · rintro ⟨⟩; exact absurd h1 (lt_irrefl _)
    · constructor
      · intro h; exact absurd h (by decide)
      · rintro ⟨⟩; exact absurd h2 (lt_irrefl _)
    · have hab : a = b := le_antisymm (not_lt.mp h2) (not_lt.mp h1)
      subst hab
      rw [strCompare_eq_zero_iff as bs]
      constructor
      · rintro rfl; rfl
      · rintro ⟨⟩; rfl

theorem strCompare_trichot : ∀ s t : List Char,
    strCompare s t = -1 ∨ strCompare s t = 0 ∨ strCompare s t = 1
  | [], [] => by simp [strCompare]
  | [], _ :: _ => by simp [strCompare]
  | _ :: _, [] => by simp [strCompare]
  | a :: as, b :: bs => by
    simp only [strCompare]
    split_ifs <;> simp [strCompare_trichot as bs]

theorem strCompare_neg_iff : ∀ s t : List Char,
    strCompare s t = -1 ↔ List.Lex (· < ·) s t
  | [], [] => by simp [strCompare]
  | [], _ :: _ => by simp [strCompare]; exact List.Lex.nil
  | _ :: _, [] => by
    simp only [strCompare]
    constructor
    · intro h; exact absurd h (by decide)
    · intro h; cases h
  | a :: as, b :: bs => by
    simp only [strCompare]
    split_ifs with h1 h2
    · simp only [eq_self_iff_true, true_iff]
      exact List.Lex.rel h1
    · constructor
      · intro h; exact absurd h (by decide)
      · intro h
        cases h with
        | rel hr => exact absurd hr (asymm h2)
        | cons hc => exact absurd h2 (lt_irrefl _)
    · have hab : a = b := le_antisymm (not_lt.mp h2) (not_lt.mp h1)
      subst hab
      rw [strCompare_neg_iff as bs]
      constructor
      · exact List.Lex.cons
      · intro h
        cases h with
        | rel hr => exact absurd hr (lt_irrefl _)
        | cons hc => exact hc

theorem lex_irrefl (s : List Char) : ¬ List.Lex (· < ·) s s := by
  induction s with
  | nil => intro h; cases h
  | cons a as ih =>
      intro h
      cases h with
      | rel hr => exact absurd hr (lt_irrefl _)
      | cons hc => exact ih hc

/-! ## C1: strict-ISO dates -/

/-- The decimal digit character of `k` (for `k ≤ 9`). -/
def renderDigit : Nat → Char
  | 0 => '0' | 1 => '1' | 2 => '2' | 3 => '3' | 4 => '4'
  | 5 => '5' | 6 => '6' | 7 => '7' | 8 => '8' | _ => '9'

/-- Two-digit zero-padded decimal rendering of `n ≤ 99`. -/
def render2 (n : Nat) : List Char := [renderDigit (n / 10 % 10), renderDigit (n % 10)]

/-- Four-digit zero-padded decimal rendering of `n ≤ 9999`. -/
def render4 (n : Nat) : List Char :=
  [renderDigit (n / 1000 % 10), renderDigit (n / 100 % 10),
   renderDigit (n / 10 % 10), renderDigit (n % 10)]

/-- The `YYYY-MM-DD` string of the calendar date `(y, m, d)`; every
string of that exact shape is `isoRender` of its digit values. -/
def isoRender (y m d : Nat) : List Char :=
  render4 y ++ '-' :: (render2 m ++ '-' :: render2 d)

example : isoRender 2024 1 10 = cs "2024-01-10" := by decide

theorem renderDigit_isDigit (k : Nat) : isDigitChar (renderDigit k) = true := by
  rcases k with _ | _ | _ | _ | _ | _ | _ | _ | _ | k <;> rfl

theorem renderDigit_ne_dash (k : Nat) : renderDigit k ≠ '-' := by
  rcases k with _ | _ | _ | _ | _ | _ | _ | _ | _ | k <;>
    first
      | decide
      | exact (by decide : ('9' : Char) ≠ '-')

theorem renderDigit_toNat (k : Nat) (h : k ≤ 9) : (renderDigit k).toNat = 48 + k := by
  interval_cases k <;> rfl

theorem digitsVal_render2 (n : Nat) (h : n ≤ 99) : digitsVal (render2 n) = n := by
  simp only [digitsVal, render2, List.foldl]
  rw [renderDigit_toNat (n / 10 % 10) (by omega), renderDigit_toNat (n % 10) (by omega)]
  omega

theorem digitsVal_render4 (n : Nat) (h : n ≤ 9999) : digitsVal (render4 n) = n := by
  simp only [digitsVal, render4, List.foldl]
  rw [renderDigit_toNat (n / 1000 % 10) (by omega), renderDigit_toNat (n / 100 % 10) (by omega),
    renderDigit_toNat (n / 10 % 10) (by omega), renderDigit_toNat (n % 10) (by omega)]
  omega

theorem isoMatch_render (y m d : Nat) : isoMatch (isoRender y m d) = true := by
  simp [isoRender, render4, render2, isoMatch, renderDigit_isDigit]

theorem splitOnChar_dash (c1 c2 c3 c4 c5 c6 c7 c8 : Char)
    (h1 : c1 ≠ '-') (h2 : c2 ≠ '-') (h3 : c3 ≠ '-') (h4 : c4 ≠ '-')
    (h5 : c5 ≠ '-') (h6 : c6 ≠ '-') (h7 : c7 ≠ '-') (h8 : c8 ≠ '-') :
    splitOnChar '-' [c1, c2, c3, c4, '-', c5, c6, '-', c7, c8]
      = [[c1, c2, c3, c4], [c5, c6], [c7, c8]] := by
  simp [splitOnChar, h1, h2, h3, h4, h5, h6, h7, h8]

theorem splitOnChar_isoRender (y m d : Nat) :
    splitOnChar '-' (isoRender y m d) = [render4 y, render2 m, render2 d] := by
  simp only [isoRender, render4, render2, List.cons_append, List.nil_append]
  exact splitOnChar_dash _ _ _ _ _ _ _ _
    (renderDigit_ne_dash _) (renderDigit_ne_dash _) (renderDigit_ne_dash _)
    (renderDigit_ne_dash _) (renderDigit_ne_dash _) (renderDigit_ne_dash _)
    (renderDigit_ne_dash _) (renderDigit_ne_dash _)

theorem monthLength_le (y m : Nat) : monthLength y m ≤ 31 := by
  unfold monthLength
  split_ifs <;> omega

theorem cumDaysBeforeMonth_le (m : Nat) : cumDaysBeforeMonth m ≤ 334 := by
  rcases m with _ | _ | _ | _ | _ | _ | _ | _ | _ | _ | _ | _ | m <;>
    first
      | decide
      | exact (by decide : (334 : Nat) ≤ 334)

theorem dayNumber_bounds (y m d : Nat) (hy : y ≤ 9999) (hd : d ≤ 31) :
    -719528 ≤ dayNumber y m d ∧ dayNumber y m d ≤ 4000000 := by
  have hc := cumDaysBeforeMonth_le m
  unfold dayNumber
  split_ifs <;> omega

theorem dateUTC_eq_specUtcMidnight (y m d : Nat) (hy : 100 ≤ y) (hv : validDate y m d) :
    dateUTC y m d = specUtcMidnight y m d := by
  obtain ⟨hm1, hm2, hd1, _, hy2⟩ := hv
  unfold dateUTC specUtcMidnight makeFullYear
  rw [if_neg (by omega)]
  have hmk : makeDay (y : Int) ((m : Int) - 1) (d : Int) = daysFromCivil (y : Int) (m : Int) (d : Int) :=
    makeDay_eq_daysFromCivil (y : Int) (m : Int) (d : Int) (by omega) (by omega)
  rw [hmk, daysFromCivil_eq_dayNumber y m d hm1 hm2 hd1]

/-- C1 (corrected): for every string of the exact form `YYYY-MM-DD`
denoting a valid calendar date with year `0100..9999`, `parseDateSafe`
— and hence `parseAnyDate` — returns the UTC-midnight instant of that
calendar date, for every host generic parser (so independently of the
host timezone), the strict-ISO branch taking precedence over the generic
parser.  (Years `0000..0099` are shifted to `1900..1999` by the
`Date.UTC` two-digit-year rule; see the counterexample.) -/
theorem C1_parseDateSafe_iso_utc (generic : List Char → Option Int) (y m d : Nat) (now : Int)
    (hy : 100 ≤ y) (hv : validDate y m d) :
    parseDateSafe generic (isoRender y m d) = some (specUtcMidnight y m d) ∧
    parseAnyDate generic (isoRender y m d) now = some (specUtcMidnight y m d) := by
  obtain ⟨hm1, hm2, hd1, hd2, hy2⟩ := hv
  have habs : parseDateSafe generic (isoRender y m d) = some (specUtcMidnight y m d) := by
    unfold parseDateSafe
    rw [if_neg (by simp [isoRender, render4]), if_pos (isoMatch_render y m d),
      splitOnChar_isoRender y m d]
    simp only []
    have hclip : timeClipOK (specUtcMidnight y m d) := by
      have hb := dayNumber_bounds y m d hy2 (le_trans hd2 (monthLength_le y m))
      unfold timeClipOK specUtcMidnight
      omega
    rw [digitsVal_render4 y (by omega), digitsVal_render2 m (by omega),
      digitsVal_render2 d (by have := monthLength_le y m; omega),
      dateUTC_eq_specUtcMidnight y m d hy ⟨hm1, hm2, hd1, hd2, hy2⟩, if_pos hclip]
  refine ⟨habs, ?_⟩
  unfold parseAnyDate
  rw [habs]

/-- C1 witness at a concrete date. -/
theorem C1_parseDateSafe_iso_utc_check :
    parseDateSafe (fun _ => none) (isoRender 2024 1 10) = some (specUtcMidnight 2024 1 10) ∧
    parseAnyDate (fun _ => none) (isoRender 2024 1 10) 0 = some (specUtcMidnight 2024 1 10) :=
  C1_parseDateSafe_iso_utc (fun _ => none) 2024 1 10 0 (by norm_num) (by decide)

/-- C1 counterexample: `"0012-01-01"` is a well-formed valid calendar
date, but `Date.UTC`'s two-digit-year rule maps year 12 to 1912, so the
result is not UTC midnight of year 12. -/
theorem C1_year_quirk_cex :
    isoMatch (cs "0012-01-01") = true ∧ validDate 12 1 1 ∧
    parseDateSafe (fun _ => none) (cs "0012-01-01") = some (specUtcMidnight 1912 1 1) ∧
    parseDateSafe (fun _ => none) (cs "0012-01-01") ≠ some (specUtcMidnight 12 1 1) := by
  exact ⟨by decide, by decide, by decide, by decide⟩

/-! ## Concrete posts used by witnesses and counterexamples -/

/-- A post dated at the epoch. -/
def samplePost : Post := ⟨[], [], some 0, cs "a", cs "t", [], [], cs "u"⟩

/-- A post with a pre-1970 date (negative time value). -/
def prePost : Post := ⟨[], [], some (-86400000), cs "a", cs "t", [], [], cs "u"⟩

/-- A post with an absent (`null`) `dateObj`. -/
def nonePost : Post := ⟨[], [], none, cs "b", cs "s", [], [], cs "u"⟩

/-- A post with a small positive time value. -/
def posPost : Post := ⟨[], [], some 5, cs "a", cs "t", [], [], cs "u"⟩

/-- C2 (corrected): the comparator is the lexicographic order on the key
(time value descending with absent `dateObj` as epoch zero, then author
ascending, then title ascending); a post with a positive time value does
sort before every dateless post, but a dateless post is not after every
dated post (see the counterexample with a pre-1970 date). -/
theorem C2_postCompare_lex (a b : Post) :
    (postCompare a b < 0 ↔
      (timeVal b < timeVal a ∨ (timeVal a = timeVal b ∧
        (List.Lex (· < ·) a.author b.author ∨
          (a.author = b.author ∧ List.Lex (· < ·) a.title b.title))))) ∧
    (postCompare a b = 0 ↔
      (timeVal a = timeVal b ∧ a.author = b.author ∧ a.title = b.title)) ∧
    (b.dateObj = none → 0 < timeVal a → postCompare a b < 0) := by
  unfold postCompare
  split_ifs with h1 h2
  · refine ⟨?_, ?_, ?_⟩
    · constructor
      · intro h; exact Or.inl (by omega)
      · rintro (h | ⟨h, _⟩) <;> omega
    · constructor
      · intro h; omega
      · rintro ⟨h, _, _⟩; omega
    · intro hb ha
      have hz : timeVal b = 0 := by simp [timeVal, hb]
      omega
  · have hane : a.author ≠ b.author := fun h => h2 ((strCompare_eq_zero_iff _ _).mpr h)
    refine ⟨?_, ?_, ?_⟩
    · constructor
      · intro h
        have hlex : List.Lex (· < ·) a.author b.author := by
          rcases strCompare_trichot a.author b.author with h3 | h3 | h3
          · exact (strCompare_neg_iff _ _).mp h3
          · exact absurd h3 h2
          · omega
        exact Or.inr ⟨by omega, Or.inl hlex⟩
      · rintro (h | ⟨heq, hlex | ⟨hau, _⟩⟩)
        · omega
        · have := (strCompare_neg_iff a.author b.author).mpr hlex
          omega
        · exact absurd hau hane
    · constructor
      · intro h; exact absurd h h2
      · rintro ⟨_, hau, _⟩; exact absurd hau hane
    · intro hb ha
      have hz : timeVal b = 0 := by simp [timeVal, hb]
      omega
  · have hau : a.author = b.author := (strCompare_eq_zero_iff _ _).mp (not_not.mp h2)
    refine ⟨?_, ?_, ?_⟩
    · constructor
      · intro h
        have hlex : List.Lex (· < ·) a.title b.title := by
          rcases strCompare_trichot a.title b.title with h3 | h3 | h3
          · exact (strCompare_neg_iff _ _).mp h3
          · omega
          · omega
        exact Or.inr ⟨by omega, Or.inr ⟨hau, hlex⟩⟩
      · rintro (h | ⟨heq, hlex | ⟨_, htl⟩⟩)
        · omega
        · exact absurd hlex (by rw [hau]; exact lex_irrefl _)
        · have := (strCompare_neg_iff a.title b.title).mpr htl
          omega
    · constructor
      · intro h; exact ⟨by omega, hau, (strCompare_eq_zero_iff _ _).mp h⟩
      · rintro ⟨_, _, htl⟩; exact (strCompare_eq_zero_iff _ _).mpr htl
    · intro hb ha
      have hz : timeVal b = 0 := by simp [timeVal, hb]
      omega

/-- C2 witness: a post with positive time value sorts before a dateless
post. -/
theorem C2_postCompare_lex_check : postCompare posPost nonePost < 0 :=
  (C2_postCompare_lex posPost nonePost).2.2 rfl (by decide)

/-- C2 counterexample: a dateless post does *not* sort after a post
dated before 1970 — absent dates count as epoch zero, which is greater
than a negative time value. -/
theorem C2_dateless_order_cex :
    prePost.dateObj ≠ none ∧ nonePost.dateObj = none ∧
    ¬(postCompare prePost nonePost < 0) := by
  exact ⟨by decide, by decide, by decide⟩

/-- C3 (corrected): `-1` is the unbounded sentinel but `0` is also
falsy, so both return the input unchanged; a positive `max` takes the
first `max` posts; `max < -1` is JS `slice(0, max)`, all but the last
`|max|` posts — not the empty list. -/
theorem C3_limited_spec (rows : List Post) (mx : Int) :
    ((mx = 0 ∨ mx = -1) → limited mx rows = rows) ∧
    (0 < mx → limited mx rows = rows.take mx.toNat) ∧
    (mx < -1 → limited mx rows = rows.take (rows.length - mx.natAbs)) := by
  unfold limited
  refine ⟨fun h => ?_, fun h => ?_, fun h => ?_⟩ <;>
    split_ifs <;> first | rfl | omega

/-- C3 witness. -/
theorem C3_limited_spec_check :
    limited 2 [samplePost, prePost, nonePost] = [samplePost, prePost] ∧
    limited (-1) [samplePost] = [samplePost] ∧
    limited (-3) [samplePost, prePost, nonePost, posPost] = [samplePost] := by
  refine ⟨?_, ?_, ?_⟩
  · rw [(C3_limited_spec [samplePost, prePost, nonePost] 2).2.1 (by norm_num)]; decide
  · exact (C3_limited_spec [samplePost] (-1)).1 (Or.inr rfl)
  · rw [(C3_limited_spec [samplePost, prePost, nonePost, posPost] (-3)).2.2 (by norm_num)]
    decide

/-- C3 counterexample: `max = 0` returns the whole list, and
`max = -2` keeps all but the last two posts; neither is the empty list
the claim demands for `max ≤ 0` other than the sentinel. -/
theorem C3_limited_zero_cex :
    limited 0 [samplePost] = [samplePost] ∧
    limited (-2) [samplePost, prePost, nonePost] = [samplePost] := by
  exact ⟨by decide, by decide⟩

/-- C4 (confirmed): with `period > 0` (the active case — within the
spec's `FilterConfig` domain a non-sentinel period is positive) the
period stage keeps exactly the posts whose `dateObj` is present and at
least `now` minus `period` days, in particular every dateless post is
dropped; with `period ≤ 0` (the `-1` sentinel) every post passes. -/
theorem C4_periodStage_spec (rows : List Post) (period now : Int) :
    (0 < period →
      periodStage period now rows =
        rows.filter (fun r =>
          match r.dateObj with
          | some t => decide (now - period * 86400000 ≤ t)
          | none => false) ∧
      ∀ r ∈ periodStage period now rows, r.dateObj ≠ none) ∧
    (period ≤ 0 → periodStage period now rows = rows) := by
  constructor
  · intro hper
    have hpred : (fun r : Post =>
        match r.dateObj with
        | some t => decide (setUTCDateMinus now period ≤ t)
        | none => false) = (fun r : Post =>
        match r.dateObj with
        | some t => decide (now - period * 86400000 ≤ t)
        | none => false) := by
      funext r
      rcases r.dateObj with _ | t
      · rfl
      · simp [setUTCDateMinus_eq]
    constructor
    · unfold periodStage
      rw [if_pos hper, hpred]
    · intro r hr
      unfold periodStage at hr
      rw [if_pos hper] at hr
      have hmem := List.of_mem_filter hr
      rcases hd : r.dateObj with _ | t
      · rw [hd] at hmem; simp at hmem
      · simp [hd]
  · exact periodStage_inactive period now rows

/-- C4 witness: an epoch-dated post survives a 7-day window at
`now = 0`, and passes through when the period is the sentinel. -/
theorem C4_periodStage_spec_check :
    periodStage 7 0 [samplePost, nonePost] = [samplePost] ∧
    periodStage (-1) 0 [samplePost, nonePost] = [samplePost, nonePost] := by
  constructor
  · rw [((C4_periodStage_spec [samplePost, nonePost] 7 0).1 (by norm_num)).1]; decide
  · exact (C4_periodStage_spec [samplePost, nonePost] (-1) 0).2 (by norm_num)

/-- C7 (confirmed): the filter stages only narrow — every surviving post
is a member of the input — and with no stage active (empty author and
tag lists, sentinel period, blank query) the input comes back exactly. -/
theorem C7_filter_narrowing (A T : List (List Char)) (per : Int) (s : List Char)
    (now : Int) (rows : List Post) :
    (∀ p, p ∈ applyFilters A T per s now rows → p ∈ rows) ∧
    (A = [] → T = [] → per = -1 → jsTrim s = [] →
      applyFilters A T per s now rows = rows) := by
  constructor
  · intro p hp
    exact (applyFilters_sublist A T per s now rows).subset hp
  · rintro rfl rfl rfl hs
    unfold applyFilters
    have h1 : authorStage [] rows = rows := by unfold authorStage; rw [if_pos rfl]
    have h2 : tagStage [] rows = rows := by unfold tagStage; rw [if_pos rfl]
    have h3 : periodStage (-1) now rows = rows := periodStage_inactive (-1) now rows (by norm_num)
    have h4 : searchStage s rows = rows := by unfold searchStage; rw [if_pos hs]
    rw [h1, h2, h3, h4]

/-- C7 witness. -/
theorem C7_filter_narrowing_check :
    applyFilters [] [] (-1) [] 0 [samplePost, nonePost] = [samplePost, nonePost] :=
  (C7_filter_narrowing [] [] (-1) [] 0 [samplePost, nonePost]).2 rfl rfl rfl (by decide)

/-- C9 (corrected): with the wall clock `now` made explicit, the
pipeline is a pure function; whenever the period stage is inactive the
output does not depend on `now` at all, so repeated invocations agree.
(With an active period the captured clock does change the result; see
the counterexample.) -/
theorem C9_pipeline_now_independent (A T : List (List Char)) (per : Int) (s : List Char)
    (now1 now2 : Int) (rows : List Post) (h : per ≤ 0) :
    filteredMemo A T per s now1 rows = filteredMemo A T per s now2 rows := by
  unfold filteredMemo applyFilters
  rw [periodStage_inactive per now1 _ h, periodStage_inactive per now2 _ h]

/-- C9 witness. -/
theorem C9_pipeline_now_independent_check :
    filteredMemo [] [] (-1) [] 0 [samplePost] = filteredMemo [] [] (-1) [] 999 [samplePost] :=
  C9_pipeline_now_independent [] [] (-1) [] 0 999 [samplePost] (by norm_num)

/-- C9 counterexample: the period stage reads the wall clock internally
(`new Date()`), so two invocations with identical post list and filter
configuration but different clock instants disagree. -/
theorem C9_wallclock_cex :
    filteredMemo [] [] 7 [] 0 [samplePost] ≠ filteredMemo [] [] 7 [] 864000000 [samplePost] := by
  decide

/-- C10 (confirmed): the surviving posts appear in the output of the
filter stages in their input order — the stages are order-preserving
selections (the output is a sublist of the input). -/
theorem C10_filter_order_preserved (A T : List (List Char)) (per : Int) (s : List Char)
    (now : Int) (rows : List Post) :
    (applyFilters A T per s now rows).Sublist rows :=
  applyFilters_sublist A T per s now rows

/-- C5 (corrected): the dashboard parser (`parseRelativeLinkedInDate`)
maps `"just now"` to `now` and `"yesterday"` to `now` minus one UTC day
but fails on bare `"now"` (it falls into the quantity-unit grammar and
`parseInt('now')` is `NaN`); the utility parser (`parseLinkedInRelative`)
maps both `"just now"` and `"now"` to `now` but fails on `"yesterday"`
(its quantity-unit regex requires digits). -/
theorem C5_literal_phrases (now : Int) (generic : List Char → Option Int) (tz : Int) :
    parseRelativeLinkedInDate (cs "just now") now = some now ∧
    parseRelativeLinkedInDate (cs "yesterday") now = some (now - 86400000) ∧
    parseRelativeLinkedInDate (cs "now") now = none ∧
    parseLinkedInRelative generic tz (cs "just now") now = some now ∧
    parseLinkedInRelative generic tz (cs "now") now = some now ∧
    parseLinkedInRelative generic tz (cs "yesterday") now = none := by
  refine ⟨rfl, ?_, rfl, rfl, rfl, rfl⟩
  show some (setUTCDateMinus now 1) = some (now - 86400000)
  rw [setUTCDateMinus_eq]
  norm_num

/-- C5 counterexample: the claim's `"now" ↦ T` fails on the dashboard
parser and its `"yesterday" ↦ T - 1 day` fails on the utility parser. -/
theorem C5_literal_phrases_cex :
    parseRelativeLinkedInDate (cs "now") 0 = none ∧
    parseLinkedInRelative (fun _ => none) 0 (cs "yesterday") 0 = none := by
  exact ⟨rfl, rfl⟩

/-- C6 (corrected): only the utility parser strips `ago`/`edited`
anywhere (and it replaces only `·`/`•`, not dashes or periods); the
dashboard parser replaces `·`, `•`, dashes and every period by spaces
and collapses double spaces, but strips neither word — it merely
ignores tokens after the unit, so only a trailing `" ago"` (or any
trailing token) leaves a quantity-unit parse unchanged, while a leading
`"ago"`/`"edited"` makes it fail. -/
theorem C6_normalization (now : Int) (generic : List Char → Option Int) (tz : Int) :
    parseRelativeLinkedInDate (cs "2 h ago") now = parseRelativeLinkedInDate (cs "2 h") now ∧
    parseRelativeLinkedInDate (cs "2 h") now = some (now - 2 * 3600000) ∧
    parseRelativeLinkedInDate (cs "edited 2 h") now = none ∧
    parseRelativeLinkedInDate (cs "ago 2 h") now = none ∧
    parseLinkedInRelative generic tz (cs "2 h edited") now
      = parseLinkedInRelative generic tz (cs "2 h") now ∧
    parseLinkedInRelative generic tz (cs "ago 2 h") now
      = parseLinkedInRelative generic tz (cs "2 h") now ∧
    parseLinkedInRelative generic tz (cs "2 h") now = some (now - 2 * 3600000) := by
  exact ⟨rfl, rfl, rfl, rfl, rfl, rfl, rfl⟩

/-- C6 counterexample: two inputs differing only by an `"edited"` word
parse differently in the dashboard parser. -/
theorem C6_normalization_cex :
    parseRelativeLinkedInDate (cs "edited 2 h") 0 = none ∧
    parseRelativeLinkedInDate (cs "2 h") 0 = some (-7200000) := by
  exact ⟨rfl, by decide⟩

/-- C8 (corrected): every phrase the relative path accepts whose parsed
quantity is nonnegative yields an instant `≤ now` (the literal phrases
and all six units only move backwards); but JS `parseInt` accepts a
sign, so a negative quantity — see the counterexample — yields a future
instant. -/
theorem C8_relative_past (v : List Char) (now t : Int)
    (hp : parseRelativeLinkedInDate v now = some t)
    (hq : ∀ n u, relQtyUnit (splitOnChar ' ' (normalizeRel v)) = some (n, u) → 0 ≤ n) :
    t ≤ now := by
  simp only [parseRelativeLinkedInDate] at hp
  split_ifs at hp with h0 h1 h2
  · simp only [Option.some.injEq] at hp
    omega
  · simp only [Option.some.injEq] at hp
    rw [setUTCDateMinus_eq] at hp
    omega
  · rcases hru : relQtyUnit (splitOnChar ' ' (normalizeRel v)) with _ | ⟨n, u⟩
    · rw [hru] at hp; simp at hp
    · rw [hru] at hp
      dsimp only at hp
      have hn : 0 ≤ n := hq n u hru
      rcases hk : unitKind u with _ | k
      · rw [hk] at hp; simp at hp
      · rw [hk] at hp
        dsimp only at hp
        simp only [Option.some.injEq] at hp
        rw [← hp]
        exact applyUnitSub_le now n k hn

/-- C8 witness: `"2 h"` at `now = 0` gives an instant in the past. -/
theorem C8_relative_past_check :
    parseRelativeLinkedInDate (cs "2 h") 0 = some (-7200000) ∧ (-7200000 : Int) ≤ 0 := by
  refine ⟨by decide, ?_⟩
  refine C8_relative_past (cs "2 h") 0 (-7200000) (by decide) ?_
  intro n u h
  rw [show relQtyUnit (splitOnChar ' ' (normalizeRel (cs "2 h"))) = some (2, cs "h")
    from by decide] at h
  simp only [Option.some.injEq, Prod.mk.injEq] at h
  omega

/-- C8 counterexample: the accepted phrase `"-3 h"` (signed quantity via
`parseInt`) produces an instant three hours in the future of `now`. -/
theorem C8_negative_qty_cex :
    parseRelativeLinkedInDate (cs "-3 h") 0 = some 10800000 ∧ ¬((10800000 : Int) ≤ 0) := by
  exact ⟨by decide, by norm_num⟩
